import Mathlib

/-!
Verification of the tile_screen utility (main.go) against its design
specification.  The Go source is shallowly embedded below: the window
procedure's handlers become pure functions from the mutable locals
(`selecting`, `selection`, `tiles`, `info`) and the relevant OS query
results to a new state plus an output record of the side effects the
handler requests.  Go `int`/`int32` arithmetic on the values involved
never overflows 32 bits in any scenario considered here, so machine
integers are modelled as `Int`; Go's `/` and `%` truncate toward zero,
which is `Int.tdiv` / `Int.tmod`.
-/

namespace TileScreen

/-- w32.RECT: four int32 fields. -/
structure Rect where
  left : Int
  top : Int
  right : Int
  bottom : Int
deriving DecidableEq, Repr

/-- w32 RECT.Width(): Right - Left. -/
def Rect.width (r : Rect) : Int := r.right - r.left

/-- w32 RECT.Height(): Bottom - Top. -/
def Rect.height (r : Rect) : Int := r.bottom - r.top

/-- func min(a, b int32) int32 of main.go. -/
def min (a b : Int) : Int := if a < b then a else b

/-- func max(a, b int32) int32 of main.go. -/
def max (a b : Int) : Int := if a > b then a else b

/-- func overlap(a, b w32.RECT) bool of main.go.  In the WM_PAINT handler
the first argument is the cell rectangle and the second the selection. -/
def overlap (a b : Rect) : Bool :=
  decide (b.right ≥ a.left) && decide (b.left < a.right) &&
  decide (b.bottom ≥ a.top) && decide (b.top < a.bottom)

/-- tileW of the WM_LBUTTONUP handler (and `w` of WM_PAINT):
`int(info.RcWork.Width()) / tiles`, Go integer division. -/
def tileW (wa : Rect) (tiles : Int) : Int := wa.width.tdiv tiles

/-- tileH of the WM_LBUTTONUP handler (and `h` of WM_PAINT):
`int(info.RcWork.Height()) / tiles`. -/
def tileH (wa : Rect) (tiles : Int) : Int := wa.height.tdiv tiles

/-- One axis of the snap in the WM_LBUTTONUP handler:
`x := int(selection.Left) / tileW * tileW` (same for y with tileH). -/
def snap1 (tile p : Int) : Int := p.tdiv tile * tile

/-- One axis of the clamped far edge in the WM_LBUTTONUP handler:
`right := int(selection.Right)/tileW*tileW + tileW` followed by
`if right > int(info.RcWork.Width()) { right = int(info.RcWork.Width()) }`. -/
def clamp1 (limit tile p : Int) : Int :=
  if p.tdiv tile * tile + tile > limit then limit
  else p.tdiv tile * tile + tile

/-- One axis of the far edge after remainder absorption:
`if int(selection.Right)/tileW == tiles-1 { right += int(info.RcWork.Width()) % tileW }`. -/
def final1 (limit tile tiles p : Int) : Int :=
  if p.tdiv tile = tiles - 1 then clamp1 limit tile p + limit.tmod tile
  else clamp1 limit tile p

/-- The geometry the WM_LBUTTONUP handler passes to SetWindowPos:
`(info.RcWork.Left + x, info.RcWork.Top + y, right - x, bottom - y)`,
where `info` is the MONITORINFO captured at startup. -/
def resolveGeometry (wa : Rect) (tiles : Int) (sel : Rect) : Int × Int × Int × Int :=
  let tw := tileW wa tiles
  let th := tileH wa tiles
  let x := snap1 tw sel.left
  let y := snap1 th sel.top
  let r := final1 wa.width tw tiles sel.right
  let b := final1 wa.height th tiles sel.bottom
  (wa.left + x, wa.top + y, r - x, b - y)

/-- The rectangle filled for grid cell (x, y) in the WM_PAINT handler:
left `x*w + 2`, top `y*h + 2`, right `(x+1)*w - 4`, bottom `(y+1)*h - 4`. -/
def cellRect (wa : Rect) (tiles x y : Int) : Rect :=
  let w := wa.width.tdiv tiles
  let h := wa.height.tdiv tiles
  ⟨x * w + 2, y * h + 2, (x + 1) * w - 4, (y + 1) * h - 4⟩

/-- The mutable locals of main: `selecting`, `selection`, `tiles`, and the
startup MONITORINFO work area `info.RcWork`. -/
structure St where
  selecting : Bool
  selection : Rect
  tiles : Int
  info : Rect
deriving DecidableEq, Repr

/-- Initial values of the locals: `var selecting bool`, `var selection w32.RECT`
(zero value), `tiles := 2`, `var info w32.MONITORINFO` (zero value). -/
def initSt : St :=
  { selecting := false, selection := ⟨0, 0, 0, 0⟩, tiles := 2, info := ⟨0, 0, 0, 0⟩ }

/-- OS query results consumed by the WM_LBUTTONUP handler: the foreground
window the polling loop ended on, the desktop window handle, the result of
MonitorFromWindow on the foreground window (0 meaning none), and the work
area of that monitor.  The source checks the monitor handle against 0 but
never queries its MONITORINFO, so `monitorWorkArea` is unused by the code. -/
structure UpEnv where
  foreground : Nat
  desktop : Nat
  monitor : Nat
  monitorWorkArea : Rect
deriving DecidableEq, Repr

/-- Side effects a handler requests from the OS. -/
structure Output where
  invalidated : Bool
  applied : Option (Nat × (Int × Int × Int × Int))
  restored : Bool
  wroteTiles : Option Int
  closed : Bool
deriving DecidableEq, Repr

/-- Output of a handler that requests nothing. -/
def quiet : Output :=
  { invalidated := false, applied := none, restored := false,
    wroteTiles := none, closed := false }

/-- WM_MOUSEMOVE handler: while selecting, grow the selection to the
componentwise min/max with the cursor position and invalidate the window
exactly when the rectangle changed. -/
def onMouseMove (st : St) (x y : Int) : St × Output :=
  if st.selecting then
    let ns : Rect := ⟨min st.selection.left x, min st.selection.top y,
                      max st.selection.right x, max st.selection.bottom y⟩
    ({ st with selection := ns }, { quiet with invalidated := decide (ns ≠ st.selection) })
  else (st, quiet)

/-- WM_LBUTTONDOWN handler: start selecting with the degenerate rectangle
at the cursor position. -/
def onLButtonDown (st : St) (x y : Int) : St × Output :=
  ({ st with selecting := true, selection := ⟨x, y, x, y⟩ }, quiet)

/-- WM_LBUTTONUP handler.  While selecting: minimize, poll until the
foreground window differs from the overlay (its result is `env.foreground`);
if it is 0 or the desktop, close without touching any window; if its monitor
is null, close likewise; otherwise restore the target, apply the geometry
resolved against the startup work area `st.info`, write the settings byte
and close. -/
def onLButtonUp (st : St) (env : UpEnv) : St × Output :=
  if st.selecting then
    if env.foreground = 0 ∨ env.foreground = env.desktop then
      (st, { quiet with closed := true })
    else if env.monitor = 0 then
      (st, { quiet with closed := true })
    else
      (st, { quiet with
               restored := true
               applied := some (env.foreground, resolveGeometry st.info st.tiles st.selection)
               wroteTiles := some st.tiles
               closed := true })
  else (st, quiet)

/-- WM_KEYDOWN handler: `if !selecting && '2' <= w && w <= '9'` (key codes
50..57) set `tiles = int(w - '0')` (subtract 48) and invalidate; otherwise
VK_ESCAPE (27) closes the window. -/
def onKeyDown (st : St) (k : Int) : St × Output :=
  if st.selecting = false ∧ 50 ≤ k ∧ k ≤ 57 then
    ({ st with tiles := k - 48 }, { quiet with invalidated := true })
  else if k = 27 then
    (st, { quiet with closed := true })
  else (st, quiet)

/-- Window messages handled by the window procedure. -/
inductive Ev where
  | mouseMove (x y : Int)
  | lButtonDown (x y : Int)
  | lButtonUp (env : UpEnv)
  | keyDown (k : Int)
  | paint
  | destroy
deriving DecidableEq

/-- Dispatch of the window procedure's switch.  WM_PAINT and WM_DESTROY do
not touch the locals considered here. -/
def step (st : St) (e : Ev) : St × Output :=
  match e with
  | .mouseMove x y => onMouseMove st x y
  | .lButtonDown x y => onLButtonDown st x y
  | .lButtonUp env => onLButtonUp st env
  | .keyDown k => onKeyDown st k
  | .paint => (st, quiet)
  | .destroy => (st, quiet)

/-- Startup settings read (main.go): `data, err := ioutil.ReadFile(...)`;
on success the code immediately indexes `data[0]` with no length guard, so
a successful read of an empty byte sequence is an out-of-bounds access,
modelled as `none`; otherwise `tiles = int(min(9, max(2, int32(data[0]))))`. -/
def startupTiles (data : Option (List Int)) (tiles : Int) : Option Int :=
  match data with
  | Option.none => some tiles
  | some bytes =>
    match bytes.head? with
    | Option.none => Option.none
    | some b => some (min 9 (max 2 b))

end TileScreen

namespace TileScreen

/-! Definitions written from the specification's wording, to be compared
with the embedded code. -/

/-- Normalization invariant on a selection rectangle (spec section 3). -/
def Rect.normalized (r : Rect) : Prop := r.left ≤ r.right ∧ r.top ≤ r.bottom

/-- Bounding box of a rectangle and a point (spec wording for the
pointer-move transition). -/
def boundingBox (r : Rect) (x y : Int) : Rect :=
  ⟨Min.min r.left x, Min.min r.top y, Max.max r.right x, Max.max r.bottom y⟩

/-- Resolution algorithm steps 1-6 as worded in the spec, against a given
work area: truncating tile sizes, snap of the top-left, far edges clamped
to the work-area size, then remainder absorption for the last column/row,
and final geometry offset by the work area's left/top. -/
def specGeometry (wa : Rect) (n : Int) (sel : Rect) : Int × Int × Int × Int :=
  let tw := wa.width.tdiv n
  let th := wa.height.tdiv n
  let x0 := sel.left.tdiv tw * tw
  let y0 := sel.top.tdiv th * th
  let x1c := Min.min (sel.right.tdiv tw * tw + tw) wa.width
  let y1c := Min.min (sel.bottom.tdiv th * th + th) wa.height
  let x1 := if sel.right.tdiv tw = n - 1 then x1c + wa.width.tmod tw else x1c
  let y1 := if sel.bottom.tdiv th = n - 1 then y1c + wa.height.tmod th else y1c
  (wa.left + x0, wa.top + y0, x1 - x0, y1 - y0)

/-- The formula claimed in C2: steps 1-4 and 6 only, with no remainder
absorption step. -/
def claimC2Geometry (wa : Rect) (n : Int) (sel : Rect) : Int × Int × Int × Int :=
  let tw := wa.width.tdiv n
  let th := wa.height.tdiv n
  let x0 := sel.left.tdiv tw * tw
  let y0 := sel.top.tdiv th * th
  let x1 := Min.min (sel.right.tdiv tw * tw + tw) wa.width
  let y1 := Min.min (sel.bottom.tdiv th * th + th) wa.height
  (wa.left + x0, wa.top + y0, x1 - x0, y1 - y0)

/-- Uninset tile rectangle of cell (x, y): `(x*tileW .. (x+1)*tileW,
y*tileH .. (y+1)*tileH)` as in claim C4. -/
def tileRect (wa : Rect) (tiles x y : Int) : Rect :=
  ⟨x * tileW wa tiles, y * tileH wa tiles,
   (x + 1) * tileW wa tiles, (y + 1) * tileH wa tiles⟩

/-- The cell rectangle claimed in C4: the tile rectangle inset by 2px on
every outer edge (4px total shrink per axis). -/
def claimC4Cell (wa : Rect) (tiles x y : Int) : Rect :=
  ⟨x * tileW wa tiles + 2, y * tileH wa tiles + 2,
   (x + 1) * tileW wa tiles - 2, (y + 1) * tileH wa tiles - 2⟩

/-- Remainder-adjusted bounds of tile (cx, cy) as a geometry tuple: the
tile's start offset by the work area's left/top, with the last column/row
absorbing the integer-division leftover. -/
def adjustedTileGeom (wa : Rect) (n cx cy : Int) : Int × Int × Int × Int :=
  let tw := tileW wa n
  let th := tileH wa n
  (wa.left + cx * tw, wa.top + cy * th,
   tw + (if cx = n - 1 then wa.width.tmod tw else 0),
   th + (if cy = n - 1 then wa.height.tmod th else 0))

/-- Decides whether a geometry is the remainder-adjusted bounds of some
cell of the N-by-N grid. -/
def isAdjustedTile (wa : Rect) (n : Int) (g : Int × Int × Int × Int) : Bool :=
  (List.range n.toNat).any fun cx =>
    (List.range n.toNat).any fun cy =>
      decide (g = adjustedTileGeom wa n (Int.ofNat cx) (Int.ofNat cy))

end TileScreen

namespace TileScreen

/-! Basic arithmetic lemmas about the embedded operations. -/

theorem prod4_ext {a b c d e f g h : Int} (h1 : a = e) (h2 : b = f)
    (h3 : c = g) (h4 : d = h) :
    ((a, b, c, d) : Int × Int × Int × Int) = (e, f, g, h) := by
  subst h1; subst h2; subst h3; subst h4; rfl

theorem min_eq_inf (a b : Int) : min a b = Min.min a b := by
  rw [min]
  rcases lt_or_ge a b with h | h
  · rw [if_pos h, min_eq_left h.le]
  · rw [if_neg (not_lt.2 h), min_eq_right h]

theorem max_eq_sup (a b : Int) : max a b = Max.max a b := by
  rw [max]
  rcases lt_or_ge b a with h | h
  · rw [if_pos h, max_eq_left h.le]
  · rw [if_neg (not_lt.2 h), max_eq_right h]

theorem tdiv_pos_of_le {a b : Int} (hb : 0 < b) (hba : b ≤ a) : 0 < a.tdiv b := by
  have ha : 0 ≤ a := le_trans hb.le hba
  rw [Int.tdiv_eq_ediv ha hb.le]
  have h1 : 1 ≤ a / b := (Int.le_ediv_iff_mul_le hb).2 (by simpa using hba)
  omega

theorem tileW_pos {wa : Rect} {n : Int} (hn : 0 < n) (hw : n ≤ wa.width) :
    0 < tileW wa n := tdiv_pos_of_le hn hw

theorem tileH_pos {wa : Rect} {n : Int} (hn : 0 < n) (hh : n ≤ wa.height) :
    0 < tileH wa n := tdiv_pos_of_le hn hh

theorem snap1_le {t p : Int} (ht : 0 < t) (hp : 0 ≤ p) : snap1 t p ≤ p := by
  rw [snap1, Int.tdiv_eq_ediv hp ht.le]
  exact Int.ediv_mul_le p (ne_of_gt ht)

theorem lt_snap1_add {t p : Int} (ht : 0 < t) (hp : 0 ≤ p) : p < snap1 t p + t := by
  rw [snap1, Int.tdiv_eq_ediv hp ht.le]
  have h := Int.lt_ediv_add_one_mul_self p ht
  rw [add_mul, one_mul] at h
  exact h

theorem snap1_lt_clamp1 {limit t p : Int} (ht : 0 < t) (hp : 0 ≤ p)
    (hpl : p < limit) : snap1 t p < clamp1 limit t p := by
  rw [clamp1]
  split
  · exact lt_of_le_of_lt (snap1_le ht hp) hpl
  · rw [snap1]; omega

theorem tmod_nonneg_of_nonneg {a b : Int} (ha : 0 ≤ a) (hb : 0 < b) :
    0 ≤ a.tmod b := by
  rw [Int.tmod_eq_emod ha hb.le]
  exact Int.emod_nonneg a (ne_of_gt hb)

theorem clamp1_le_final1 {limit t tiles p : Int} (ht : 0 < t) (hl : 0 ≤ limit) :
    clamp1 limit t p ≤ final1 limit t tiles p := by
  rw [final1]
  split
  · have := tmod_nonneg_of_nonneg hl ht
    omega
  · exact le_refl _

theorem mul_tdiv_self_le {a b : Int} (hb : 0 < b) (ha : 0 ≤ a) :
    b * a.tdiv b ≤ a := by
  rw [Int.tdiv_eq_ediv ha hb.le, mul_comm]
  exact Int.ediv_mul_le a (ne_of_gt hb)

/-- When the selection edge lies in column index `≤ tiles - 1`, the clamp
never fires and the final edge is the snapped start plus one tile, plus the
remainder exactly in the last column. -/
theorem final1_in_grid {limit n p : Int} (h2 : 2 ≤ n) (hlim : n ≤ limit)
    (_hp : 0 ≤ p) (hcx : p.tdiv (limit.tdiv n) ≤ n - 1) :
    final1 limit (limit.tdiv n) n p
      = snap1 (limit.tdiv n) p + limit.tdiv n
        + (if p.tdiv (limit.tdiv n) = n - 1 then limit.tmod (limit.tdiv n) else 0) := by
  have hn : (0 : Int) < n := by omega
  have ht : 0 < limit.tdiv n := tdiv_pos_of_le hn hlim
  have hnoclamp : p.tdiv (limit.tdiv n) * limit.tdiv n + limit.tdiv n ≤ limit := by
    have h1 : (p.tdiv (limit.tdiv n) + 1) * limit.tdiv n ≤ n * limit.tdiv n :=
      mul_le_mul_of_nonneg_right (by omega) ht.le
    have h2' : n * limit.tdiv n ≤ limit := mul_tdiv_self_le hn (le_trans hn.le hlim)
    calc p.tdiv (limit.tdiv n) * limit.tdiv n + limit.tdiv n
        = (p.tdiv (limit.tdiv n) + 1) * limit.tdiv n := by ring
      _ ≤ n * limit.tdiv n := h1
      _ ≤ limit := h2'
  have hclamp : clamp1 limit (limit.tdiv n) p
      = snap1 (limit.tdiv n) p + limit.tdiv n := by
    rw [clamp1, snap1]
    rw [if_neg (by omega)]
  rw [final1, hclamp]
  split
  · rfl
  · omega

end TileScreen

namespace TileScreen

/-! Claim C5: the overlap predicate. -/

/-- C5: the overlap test used for overlay highlighting returns true
exactly when `selection.right >= cell.left && selection.left < cell.right
&& selection.bottom >= cell.top && selection.top < cell.bottom`, where the
first argument is the cell and the second the selection. -/
theorem overlap_iff (cell sel : Rect) :
    overlap cell sel = true ↔
      (sel.right ≥ cell.left ∧ sel.left < cell.right ∧
       sel.bottom ≥ cell.top ∧ sel.top < cell.bottom) := by
  simp [overlap, and_assoc]

/-! Claim C10: the startup settings read. -/

/-- C10: a successful settings read of a non-empty byte sequence sets the
tile count to `min(9, max(2, data[0]))`; a successful read of an empty
sequence is an out-of-bounds index (no defined result state); a failed
read leaves the tile count unchanged. -/
theorem startupTiles_spec (t b : Int) (rest : List Int) :
    startupTiles (some (b :: rest)) t = some (min 9 (max 2 b)) ∧
    startupTiles (some []) t = Option.none ∧
    startupTiles Option.none t = some t :=
  ⟨rfl, rfl, rfl⟩

/-! Claim C4: the painted cell rectangle. -/

/-- C4 counterexample: for work area (0,0,100,100) and N = 2, cell (0,0)
is painted as (2,2,46,46), not the claimed symmetric 2px inset (2,2,48,48):
the right and bottom edges are inset by 4, not 2. -/
theorem cellRect_c4_cex :
    cellRect ⟨0, 0, 100, 100⟩ 2 0 0 = ⟨2, 2, 46, 46⟩ ∧
    claimC4Cell ⟨0, 0, 100, 100⟩ 2 0 0 = ⟨2, 2, 48, 48⟩ ∧
    cellRect ⟨0, 0, 100, 100⟩ 2 0 0 ≠ claimC4Cell ⟨0, 0, 100, 100⟩ 2 0 0 := by
  refine ⟨by decide, by decide, by decide⟩

/-- C4 amended: the rectangle drawn for cell (x,y) is the tile rectangle
inset by 2px on the left and top edges and by 4px on the right and bottom
edges, a total shrink of 6px per axis. -/
theorem cellRect_inset (wa : Rect) (tiles x y : Int) :
    (cellRect wa tiles x y).left = (tileRect wa tiles x y).left + 2 ∧
    (cellRect wa tiles x y).top = (tileRect wa tiles x y).top + 2 ∧
    (cellRect wa tiles x y).right = (tileRect wa tiles x y).right - 4 ∧
    (cellRect wa tiles x y).bottom = (tileRect wa tiles x y).bottom - 4 := by
  refine ⟨rfl, rfl, rfl, rfl⟩

/-! Claim C1: which monitor's work area positions the final geometry. -/

/-- C1 counterexample: a run that reaches Done with the overlay's startup
work area at (0,0)-(100,100) and the target window on a monitor whose work
area is (1000,0)-(1100,100).  The code applies (0,0,50,50), while
resolution against the target monitor's work area would give
(1000,0,50,50): the handler positions via the startup work area, not the
target's. -/
theorem c1_target_workarea_cex :
    (onLButtonUp ⟨true, ⟨0, 0, 0, 0⟩, 2, ⟨0, 0, 100, 100⟩⟩
        ⟨5, 1, 3, ⟨1000, 0, 1100, 100⟩⟩).2.applied = some (5, (0, 0, 50, 50)) ∧
    specGeometry ⟨1000, 0, 1100, 100⟩ 2 ⟨0, 0, 0, 0⟩ = (1000, 0, 50, 50) ∧
    (onLButtonUp ⟨true, ⟨0, 0, 0, 0⟩, 2, ⟨0, 0, 100, 100⟩⟩
        ⟨5, 1, 3, ⟨1000, 0, 1100, 100⟩⟩).2.applied
      ≠ some (5, specGeometry ⟨1000, 0, 1100, 100⟩ 2 ⟨0, 0, 0, 0⟩) := by
  refine ⟨by decide, by decide, by decide⟩

/-- C1 amended: on every run reaching Done, the geometry applied to the
target is resolved against the work area captured at startup (`st.info`),
whatever monitor the target window is on. -/
theorem done_uses_startup_workarea (st : St) (env : UpEnv)
    (hsel : st.selecting = true) (h0 : env.foreground ≠ 0)
    (hd : env.foreground ≠ env.desktop) (hm : env.monitor ≠ 0) :
    (onLButtonUp st env).2.applied
      = some (env.foreground, resolveGeometry st.info st.tiles st.selection) := by
  rw [onLButtonUp, if_pos hsel, if_neg (by tauto), if_neg hm]

theorem done_uses_startup_workarea_witness :
    (onLButtonUp ⟨true, ⟨0, 0, 0, 0⟩, 2, ⟨0, 0, 100, 100⟩⟩
        ⟨5, 1, 3, ⟨0, 0, 100, 100⟩⟩).2.applied
      = some (5, resolveGeometry ⟨0, 0, 100, 100⟩ 2 ⟨0, 0, 0, 0⟩) :=
  done_uses_startup_workarea ⟨true, ⟨0, 0, 0, 0⟩, 2, ⟨0, 0, 100, 100⟩⟩
    ⟨5, 1, 3, ⟨0, 0, 100, 100⟩⟩ rfl (by decide) (by decide) (by decide)

/-! Claim C2: the closed-form resolution formula. -/

/-- C2 counterexample: work area (0,0)-(5,5), N = 2 (so tileW = tileH = 2)
and the selection (3,3,3,3), which lies inside the work area.  The claimed
formula (steps 1-4 and 6, with no remainder absorption) gives size 2 x 2,
but the code absorbs the last column/row remainder and yields 3 x 3. -/
theorem c2_formula_cex :
    resolveGeometry ⟨0, 0, 5, 5⟩ 2 ⟨3, 3, 3, 3⟩ = (2, 2, 3, 3) ∧
    claimC2Geometry ⟨0, 0, 5, 5⟩ 2 ⟨3, 3, 3, 3⟩ = (2, 2, 2, 2) ∧
    resolveGeometry ⟨0, 0, 5, 5⟩ 2 ⟨3, 3, 3, 3⟩
      ≠ claimC2Geometry ⟨0, 0, 5, 5⟩ 2 ⟨3, 3, 3, 3⟩ := by
  refine ⟨by decide, by decide, by decide⟩

/-- C2 amended: with the remainder-absorption step (step 5) added after
the clamp, the resolved geometry equals the closed formula of the spec's
steps 1-6 for every work area with width, height >= N, N in [2,9] and
selection inside the work area. -/
theorem resolve_matches_spec (wa : Rect) (n : Int) (sel : Rect)
    (_h2 : 2 ≤ n) (_h9 : n ≤ 9) (_hw : n ≤ wa.width) (_hh : n ≤ wa.height)
    (_hl0 : 0 ≤ sel.left) (_hlr : sel.left ≤ sel.right) (_hrw : sel.right ≤ wa.width)
    (_ht0 : 0 ≤ sel.top) (_htb : sel.top ≤ sel.bottom) (_hbh : sel.bottom ≤ wa.height) :
    resolveGeometry wa n sel = specGeometry wa n sel := by
  have hc : ∀ limit tile p : Int,
      clamp1 limit tile p = Min.min (p.tdiv tile * tile + tile) limit := by
    intro limit tile p
    rw [clamp1]
    rcases le_or_lt (p.tdiv tile * tile + tile) limit with h | h
    · rw [if_neg (not_lt.2 h), min_eq_left h]
    · rw [if_pos h, min_eq_right h.le]
  simp only [resolveGeometry, specGeometry, tileW, tileH, snap1, final1, hc]

theorem resolve_matches_spec_witness :
    resolveGeometry ⟨0, 0, 4, 4⟩ 2 ⟨0, 0, 0, 0⟩
      = specGeometry ⟨0, 0, 4, 4⟩ 2 ⟨0, 0, 0, 0⟩ :=
  resolve_matches_spec ⟨0, 0, 4, 4⟩ 2 ⟨0, 0, 0, 0⟩ (by decide) (by decide)
    (by decide) (by decide) (by decide) (by decide) (by decide) (by decide)
    (by decide) (by decide)

/-! Claim C3: remainder absorption happens exactly in the last column/row. -/

/-- C3: a selection whose right edge falls in the last column gets exactly
`width % tileW` pixels added to the clamped far edge, and a selection
ending in any other column gets none; symmetrically for the bottom edge
with `height % tileH`. -/
theorem remainder_absorption (wa : Rect) (n : Int) (sel : Rect)
    (_h2 : 2 ≤ n) (_h9 : n ≤ 9) (_hw : n ≤ wa.width) (_hh : n ≤ wa.height) :
    (sel.right.tdiv (tileW wa n) = n - 1 →
      final1 wa.width (tileW wa n) n sel.right
        = clamp1 wa.width (tileW wa n) sel.right + wa.width.tmod (tileW wa n)) ∧
    (sel.right.tdiv (tileW wa n) ≠ n - 1 →
      final1 wa.width (tileW wa n) n sel.right
        = clamp1 wa.width (tileW wa n) sel.right) ∧
    (sel.bottom.tdiv (tileH wa n) = n - 1 →
      final1 wa.height (tileH wa n) n sel.bottom
        = clamp1 wa.height (tileH wa n) sel.bottom + wa.height.tmod (tileH wa n)) ∧
    (sel.bottom.tdiv (tileH wa n) ≠ n - 1 →
      final1 wa.height (tileH wa n) n sel.bottom
        = clamp1 wa.height (tileH wa n) sel.bottom) := by
  refine ⟨fun h => ?_, fun h => ?_, fun h => ?_, fun h => ?_⟩
  · rw [final1, if_pos h]
  · rw [final1, if_neg h]
  · rw [final1, if_pos h]
  · rw [final1, if_neg h]

theorem remainder_absorption_witness :
    final1 (Rect.mk 0 0 5 5).width (tileW ⟨0, 0, 5, 5⟩ 2) 2 (Rect.mk 3 3 3 3).right
      = clamp1 (Rect.mk 0 0 5 5).width (tileW ⟨0, 0, 5, 5⟩ 2) (Rect.mk 3 3 3 3).right
        + (Rect.mk 0 0 5 5).width.tmod (tileW ⟨0, 0, 5, 5⟩ 2) :=
  (remainder_absorption ⟨0, 0, 5, 5⟩ 2 ⟨3, 3, 3, 3⟩ (by decide) (by decide)
    (by decide) (by decide)).1 (by decide)

/-! Claim C6: zero-area drags. -/

/-- C6 counterexample: work area (0,0)-(9,9), N = 2 (tileW = tileH = 4),
and a zero-area drag at P = (8,8), which lies inside the work area but in
the leftover strip beyond the 2x2 grid of tiles.  The code resolves to the
1 x 1 geometry (8,8,1,1), which is positive but is not the
remainder-adjusted bounds of any cell of the grid. -/
theorem zero_drag_cex :
    resolveGeometry ⟨0, 0, 9, 9⟩ 2 ⟨8, 8, 8, 8⟩ = (8, 8, 1, 1) ∧
    isAdjustedTile ⟨0, 0, 9, 9⟩ 2 (resolveGeometry ⟨0, 0, 9, 9⟩ 2 ⟨8, 8, 8, 8⟩)
      = false := by
  refine ⟨by decide, by decide⟩

/-- C6 amended: a zero-area drag at a point P inside the work area always
resolves to a geometry of positive width and height; when P additionally
lies within the N-by-N grid (its column and row indices are at most N-1),
that geometry is exactly the enclosing tile's remainder-adjusted bounds. -/
theorem zero_drag_resolves (wa : Rect) (n px py : Int)
    (h2 : 2 ≤ n) (_h9 : n ≤ 9) (hw : n ≤ wa.width) (hh : n ≤ wa.height)
    (hpx0 : 0 ≤ px) (hpxw : px < wa.width) (hpy0 : 0 ≤ py) (hpyh : py < wa.height) :
    (0 < (resolveGeometry wa n ⟨px, py, px, py⟩).2.2.1 ∧
     0 < (resolveGeometry wa n ⟨px, py, px, py⟩).2.2.2) ∧
    (px.tdiv (tileW wa n) ≤ n - 1 → py.tdiv (tileH wa n) ≤ n - 1 →
      resolveGeometry wa n ⟨px, py, px, py⟩
        = adjustedTileGeom wa n (px.tdiv (tileW wa n)) (py.tdiv (tileH wa n))) := by
  have hn : (0 : Int) < n := by omega
  have htw : 0 < tileW wa n := tileW_pos hn hw
  have hth : 0 < tileH wa n := tileH_pos hn hh
  have hW0 : 0 ≤ wa.width := le_trans hn.le hw
  have hH0 : 0 ≤ wa.height := le_trans hn.le hh
  have hx1 : snap1 (tileW wa n) px < clamp1 wa.width (tileW wa n) px :=
    snap1_lt_clamp1 htw hpx0 hpxw
  have hx2 : clamp1 wa.width (tileW wa n) px ≤ final1 wa.width (tileW wa n) n px :=
    clamp1_le_final1 htw hW0
  have hy1 : snap1 (tileH wa n) py < clamp1 wa.height (tileH wa n) py :=
    snap1_lt_clamp1 hth hpy0 hpyh
  have hy2 : clamp1 wa.height (tileH wa n) py ≤ final1 wa.height (tileH wa n) n py :=
    clamp1_le_final1 hth hH0
  constructor
  · constructor
    · simp only [resolveGeometry]
      omega
    · simp only [resolveGeometry]
      omega
  · intro hcx hcy
    have ex : final1 wa.width (tileW wa n) n px
        = snap1 (tileW wa n) px + tileW wa n
          + (if px.tdiv (tileW wa n) = n - 1 then wa.width.tmod (tileW wa n) else 0) :=
      final1_in_grid h2 hw hpx0 hcx
    have ey : final1 wa.height (tileH wa n) n py
        = snap1 (tileH wa n) py + tileH wa n
          + (if py.tdiv (tileH wa n) = n - 1 then wa.height.tmod (tileH wa n) else 0) :=
      final1_in_grid h2 hh hpy0 hcy
    show (wa.left + snap1 (tileW wa n) px,
          wa.top + snap1 (tileH wa n) py,
          final1 wa.width (tileW wa n) n px - snap1 (tileW wa n) px,
          final1 wa.height (tileH wa n) n py - snap1 (tileH wa n) py)
        = (wa.left + px.tdiv (tileW wa n) * tileW wa n,
           wa.top + py.tdiv (tileH wa n) * tileH wa n,
           tileW wa n + (if px.tdiv (tileW wa n) = n - 1 then wa.width.tmod (tileW wa n) else 0),
           tileH wa n + (if py.tdiv (tileH wa n) = n - 1 then wa.height.tmod (tileH wa n) else 0))
    refine prod4_ext ?_ ?_ ?_ ?_
    · rw [snap1]
    · rw [snap1]
    · rw [ex]; ring
    · rw [ey]; ring

theorem zero_drag_resolves_witness :
    (0 < (resolveGeometry ⟨0, 0, 4, 4⟩ 2 ⟨1, 1, 1, 1⟩).2.2.1 ∧
     0 < (resolveGeometry ⟨0, 0, 4, 4⟩ 2 ⟨1, 1, 1, 1⟩).2.2.2) ∧
    ((1 : Int).tdiv (tileW ⟨0, 0, 4, 4⟩ 2) ≤ 2 - 1 →
     (1 : Int).tdiv (tileH ⟨0, 0, 4, 4⟩ 2) ≤ 2 - 1 →
      resolveGeometry ⟨0, 0, 4, 4⟩ 2 ⟨1, 1, 1, 1⟩
        = adjustedTileGeom ⟨0, 0, 4, 4⟩ 2 ((1 : Int).tdiv (tileW ⟨0, 0, 4, 4⟩ 2))
            ((1 : Int).tdiv (tileH ⟨0, 0, 4, 4⟩ 2))) :=
  zero_drag_resolves ⟨0, 0, 4, 4⟩ 2 1 1 (by decide) (by decide) (by decide)
    (by decide) (by decide) (by decide) (by decide) (by decide)

/-! Claim C7: the selection rectangle stays normalized. -/

/-- C7: pointer-down creates the degenerate normalized rectangle at the
cursor; a pointer-move while selecting replaces the selection by the
bounding box of the old rectangle and the cursor (so it never shrinks and
stays normalized) and requests a redraw exactly when the rectangle
changed. -/
theorem selection_normalized_invariant (st : St) (x y : Int)
    (hsel : st.selecting = true) (hn : st.selection.normalized) :
    ((onLButtonDown st x y).1.selection = ⟨x, y, x, y⟩ ∧
      Rect.normalized ⟨x, y, x, y⟩) ∧
    (onMouseMove st x y).1.selection = boundingBox st.selection x y ∧
    ((onMouseMove st x y).1.selection).normalized ∧
    ((onMouseMove st x y).1.selection.left ≤ st.selection.left ∧
     (onMouseMove st x y).1.selection.top ≤ st.selection.top ∧
     st.selection.right ≤ (onMouseMove st x y).1.selection.right ∧
     st.selection.bottom ≤ (onMouseMove st x y).1.selection.bottom) ∧
    ((onMouseMove st x y).2.invalidated = true ↔
      (onMouseMove st x y).1.selection ≠ st.selection) := by
  obtain ⟨hn1, hn2⟩ := hn
  have hmm : (onMouseMove st x y).1.selection = boundingBox st.selection x y := by
    simp only [onMouseMove, hsel, if_true, boundingBox, min_eq_inf, max_eq_sup]
  have hinv : (onMouseMove st x y).2.invalidated
      = decide ((onMouseMove st x y).1.selection ≠ st.selection) := by
    simp only [onMouseMove, hsel, if_true]
  refine ⟨⟨rfl, le_refl x, le_refl y⟩, hmm, ?_, ?_, ?_⟩
  · rw [hmm, boundingBox, Rect.normalized]
    exact ⟨(min_le_left _ _).trans (hn1.trans (le_max_left _ _)),
           (min_le_left _ _).trans (hn2.trans (le_max_left _ _))⟩
  · rw [hmm, boundingBox]
    exact ⟨min_le_left _ _, min_le_left _ _, le_max_left _ _, le_max_left _ _⟩
  · rw [hinv]
    constructor
    · exact fun h => of_decide_eq_true h
    · exact fun h => decide_eq_true h

theorem selection_normalized_invariant_witness :
    ((onLButtonDown ⟨true, ⟨0, 0, 0, 0⟩, 2, ⟨0, 0, 0, 0⟩⟩ 3 4).1.selection
        = ⟨3, 4, 3, 4⟩ ∧ Rect.normalized ⟨3, 4, 3, 4⟩) ∧
    (onMouseMove ⟨true, ⟨0, 0, 0, 0⟩, 2, ⟨0, 0, 0, 0⟩⟩ 3 4).1.selection
      = boundingBox ⟨0, 0, 0, 0⟩ 3 4 ∧
    ((onMouseMove ⟨true, ⟨0, 0, 0, 0⟩, 2, ⟨0, 0, 0, 0⟩⟩ 3 4).1.selection).normalized ∧
    ((onMouseMove ⟨true, ⟨0, 0, 0, 0⟩, 2, ⟨0, 0, 0, 0⟩⟩ 3 4).1.selection.left ≤ 0 ∧
     (onMouseMove ⟨true, ⟨0, 0, 0, 0⟩, 2, ⟨0, 0, 0, 0⟩⟩ 3 4).1.selection.top ≤ 0 ∧
     (0 : Int) ≤ (onMouseMove ⟨true, ⟨0, 0, 0, 0⟩, 2, ⟨0, 0, 0, 0⟩⟩ 3 4).1.selection.right ∧
     (0 : Int) ≤ (onMouseMove ⟨true, ⟨0, 0, 0, 0⟩, 2, ⟨0, 0, 0, 0⟩⟩ 3 4).1.selection.bottom) ∧
    ((onMouseMove ⟨true, ⟨0, 0, 0, 0⟩, 2, ⟨0, 0, 0, 0⟩⟩ 3 4).2.invalidated = true ↔
      (onMouseMove ⟨true, ⟨0, 0, 0, 0⟩, 2, ⟨0, 0, 0, 0⟩⟩ 3 4).1.selection ≠ ⟨0, 0, 0, 0⟩) :=
  selection_normalized_invariant ⟨true, ⟨0, 0, 0, 0⟩, 2, ⟨0, 0, 0, 0⟩⟩ 3 4 rfl
    ⟨by decide, by decide⟩

/-! Claim C9: abort when no valid target materializes. -/

/-- C9: if after pointer-up the foreground resolves to no window, to the
desktop, or to a window with no monitor, the handler closes the overlay and
neither applies any geometry nor writes the settings file. -/
theorem abort_no_geometry (st : St) (env : UpEnv) (hsel : st.selecting = true)
    (h : env.foreground = 0 ∨ env.foreground = env.desktop ∨ env.monitor = 0) :
    (onLButtonUp st env).2.applied = Option.none ∧
    (onLButtonUp st env).2.closed = true ∧
    (onLButtonUp st env).2.wroteTiles = Option.none := by
  rw [onLButtonUp, if_pos hsel]
  rcases h with h | h | h
  · rw [if_pos (Or.inl h)]; exact ⟨rfl, rfl, rfl⟩
  · rw [if_pos (Or.inr h)]; exact ⟨rfl, rfl, rfl⟩
  · by_cases hf : env.foreground = 0 ∨ env.foreground = env.desktop
    · rw [if_pos hf]; exact ⟨rfl, rfl, rfl⟩
    · rw [if_neg hf, if_pos h]; exact ⟨rfl, rfl, rfl⟩

theorem abort_no_geometry_witness :
    (onLButtonUp ⟨true, ⟨0, 0, 0, 0⟩, 2, ⟨0, 0, 100, 100⟩⟩
        ⟨7, 7, 4, ⟨0, 0, 100, 100⟩⟩).2.applied = Option.none ∧
    (onLButtonUp ⟨true, ⟨0, 0, 0, 0⟩, 2, ⟨0, 0, 100, 100⟩⟩
        ⟨7, 7, 4, ⟨0, 0, 100, 100⟩⟩).2.closed = true ∧
    (onLButtonUp ⟨true, ⟨0, 0, 0, 0⟩, 2, ⟨0, 0, 100, 100⟩⟩
        ⟨7, 7, 4, ⟨0, 0, 100, 100⟩⟩).2.wroteTiles = Option.none :=
  abort_no_geometry ⟨true, ⟨0, 0, 0, 0⟩, 2, ⟨0, 0, 100, 100⟩⟩
    ⟨7, 7, 4, ⟨0, 0, 100, 100⟩⟩ rfl (Or.inr (Or.inl rfl))

/-! Claim C8: the tile count stays in [2,9]. -/

/-- C8: the tile count starts at 2; a settings value accepted at startup is
clamped to [2,9]; every handled message preserves membership in [2,9]; and
the only message that changes the tile count is a keypress of a digit key
in 50..57 while no selection is in progress, setting it to the digit. -/
theorem tiles_in_range :
    (2 ≤ initSt.tiles ∧ initSt.tiles ≤ 9) ∧
    (∀ (data : Option (List Int)) (t r : Int),
      startupTiles data t = some r → 2 ≤ t → t ≤ 9 → 2 ≤ r ∧ r ≤ 9) ∧
    (∀ (st : St) (e : Ev), 2 ≤ st.tiles → st.tiles ≤ 9 →
      2 ≤ (step st e).1.tiles ∧ (step st e).1.tiles ≤ 9) ∧
    (∀ (st : St) (e : Ev), (step st e).1.tiles ≠ st.tiles →
      ∃ k, e = Ev.keyDown k ∧ st.selecting = false ∧ 50 ≤ k ∧ k ≤ 57 ∧
        (step st e).1.tiles = k - 48) := by
  refine ⟨by decide, ?_, ?_, ?_⟩
  · intro data t r hsome h2 h9
    cases data with
    | none => rw [startupTiles] at hsome; cases hsome; omega
    | some bytes =>
      cases bytes with
      | nil => rw [startupTiles] at hsome; cases hsome
      | cons b rest =>
        rw [startupTiles] at hsome
        cases hsome
        rw [min_eq_inf, max_eq_sup]
        omega
  · intro st e h2 h9
    cases e with
    | mouseMove x y =>
      rw [step, onMouseMove]
      split <;> exact ⟨h2, h9⟩
    | lButtonDown x y => exact ⟨h2, h9⟩
    | lButtonUp env =>
      rw [step, onLButtonUp]
      split
      · split
        · exact ⟨h2, h9⟩
        · split
          · exact ⟨h2, h9⟩
          · exact ⟨h2, h9⟩
      · exact ⟨h2, h9⟩
    | keyDown k =>
      rw [step, onKeyDown]
      split
      · rename_i hg
        constructor <;> simp <;> omega
      · split
        · exact ⟨h2, h9⟩
        · exact ⟨h2, h9⟩
    | paint => exact ⟨h2, h9⟩
    | destroy => exact ⟨h2, h9⟩
  · intro st e hne
    cases e with
    | mouseMove x y =>
      exfalso; apply hne
      rw [step, onMouseMove]
      split <;> rfl
    | lButtonDown x y => exact absurd rfl hne
    | lButtonUp env =>
      exfalso; apply hne
      rw [step, onLButtonUp]
      split
      · split
        · rfl
        · split <;> rfl
      · rfl
    | keyDown k =>
      rw [step, onKeyDown] at hne ⊢
      split at hne
      · rename_i hg
        refine ⟨k, rfl, hg.1, hg.2.1, hg.2.2, ?_⟩
        rw [if_pos hg]
      · split at hne <;> exact absurd rfl hne
    | paint => exact absurd rfl hne
    | destroy => exact absurd rfl hne

theorem tiles_in_range_witness :
    2 ≤ (step initSt (Ev.keyDown 55)).1.tiles ∧
    (step initSt (Ev.keyDown 55)).1.tiles ≤ 9 :=
  tiles_in_range.2.2.1 initSt (Ev.keyDown 55) (by decide) (by decide)

end TileScreen
